import Mathlib

/-!
Shallow embedding of two units of the repository fragment: the component
descriptor parser `parsePayloadComponent` (src/unnamed/part_000) and the
drawer-visibility / search-label logic of the `ListControls` panel
(src/packages/ui/src/elements/ListControls/index.tsx), together with
theorems checking the specification's statements against them.

JS strings are modelled as Lean `String`s with positions counted in
characters; JS `null` results are modelled with `Option`.
-/

namespace Payload

/-- A JS component descriptor as `parsePayloadComponent` receives it:
`null`, `undefined`, a plain path string, or an object with a `path` field
and an optional `exportName` field (an absent or `undefined` field is
`none`). -/
inductive PayloadComponent where
  | jsNull : PayloadComponent
  | jsUndefined : PayloadComponent
  | str : String → PayloadComponent
  | obj : (path : Option String) → (exportName : Option String) → PayloadComponent
deriving DecidableEq

/-- JS truthiness of a descriptor: the guard `if (!PayloadComponent)` rejects
exactly the falsy descriptors, which within the descriptor type are `null`,
`undefined` and the empty string; objects are always truthy. -/
def jsTruthy : PayloadComponent → Bool
  | .jsNull => false
  | .jsUndefined => false
  | .str s => !s.data.isEmpty
  | .obj _ _ => true

/-- The scanned string of the parser (its local `pathAndMaybeExport`):
`typeof PayloadComponent === 'string' ? PayloadComponent : PayloadComponent.path`.
The `null`/`undefined` cases sit behind the truthiness guard. -/
def pathAndMaybeExport : PayloadComponent → Option String
  | .jsNull => none
  | .jsUndefined => none
  | .str s => some s
  | .obj p _ => p

/-- Index of the last occurrence of the hash character in a character list,
`none` when there is none: the value of JS `lastIndexOf('#')`, with `none`
standing for the `-1` result. -/
def lastHashIdx? : List Char → Option Nat
  | [] => none
  | c :: rest =>
    match lastHashIdx? rest with
    | some r => some (r + 1)
    | none => if c = '#' then some 0 else none

/-- JS `s.lastIndexOf('#')`: the index of the last hash, or `-1`. -/
def jsLastIndexOfHash (s : String) : Int :=
  match lastHashIdx? s.data with
  | some n => (n : Int)
  | none => -1

/-- The parser's scan of the optional scanned string (part_000 lines 15-23):
starting from `path = pathAndMaybeExport` and `exportName = 'default'`, it
computes `lastHashIndex = pathAndMaybeExport?.lastIndexOf('#') ?? -1` and,
when that is `> 0`, replaces `exportName` by the substring after that index
and `path` by the substring before it. Returns the `(path, exportName)`
pair. -/
def splitAtLastHash (p? : Option String) : Option String × String :=
  let lastHashIndex : Int :=
    match p? with
    | some s => jsLastIndexOfHash s
    | none => -1
  if 0 < lastHashIndex then
    match p? with
    | some s =>
        (some (String.mk (s.data.take lastHashIndex.toNat)),
          String.mk (s.data.drop (lastHashIndex.toNat + 1)))
    | none => (none, "default")
  else
    (p?, "default")

/-- The normalized reference `{ exportName, path }` the parser returns. The
`path` is optional because the missing-path object case returns the object's
`undefined` path unchanged. -/
structure ResolvedComponent where
  exportName : String
  path : Option String
deriving DecidableEq

/-- The parser `parsePayloadComponent` of src/unnamed/part_000; `none` models
its JS `null` return. After the falsy guard and the scan, an object's
explicit `exportName` field overrides the scanned export name when the field
is truthy (present and non-empty). -/
def parsePayloadComponent (pc : PayloadComponent) : Option ResolvedComponent :=
  if jsTruthy pc = false then
    none
  else
    let split := splitAtLastHash (pathAndMaybeExport pc)
    let exportName : String :=
      match pc with
      | .obj _ (some e) => if e.data.isEmpty then split.2 else e
      | _ => split.2
    some { exportName := exportName, path := split.1 }

/-- The three collapsible drawers of the list controls panel. The panel's
`visibleDrawer` state is an `Option DrawerKind`, `none` when all are
closed. -/
inductive DrawerKind where
  | columns : DrawerKind
  | sortDrawer : DrawerKind
  | whereDrawer : DrawerKind
deriving DecidableEq

/-- One toggle click (the `onClick` of each pill, index.tsx lines 161-163,
174 and 185): `setVisibleDrawer(visibleDrawer !== d ? d : undefined)`. -/
def toggleDrawer (visibleDrawer : Option DrawerKind) (d : DrawerKind) : Option DrawerKind :=
  if visibleDrawer ≠ some d then some d else none

/-- A searchable field as the label computation sees it: an optional `label`
string (an absent or empty label behaves as missing) and an optional
`name`. -/
structure FieldInfo where
  label : Option String
  name : Option String
deriving DecidableEq

/-- Lines 114-115 of index.tsx:
`'label' in field && field.label ? field.label : 'name' in field ? field.name : null`. -/
def fieldSearchLabel (f : FieldInfo) : Option String :=
  match f.label with
  | some l => if l.data.isEmpty then f.name else some l
  | none => f.name

/-- The external translation collaborators: `t('general:searchBy', {label})`
as a function of the interpolated label text, the text `t('general:or')`,
and `getTranslation` applied to an optional label. -/
structure I18n where
  tSearchBy : String → String
  tOr : String
  getTranslation : Option String → String

/-- Lines 112-130 of index.tsx: the body of `listSearchableFields.reduce`
with the current index `i` and running text `acc`, over a list whose full
length is `n`: index 0 restarts the text with the `searchBy` wrapping, the
final index appends the `or` separator, every other index appends a
comma. -/
def searchByReduce (ctx : I18n) (n : Nat) : List FieldInfo → Nat → String → String
  | [], _, acc => acc
  | f :: rest, i, acc =>
    searchByReduce ctx n rest (i + 1)
      (if i = 0 then ctx.tSearchBy (ctx.getTranslation (fieldSearchLabel f))
       else if i = n - 1 then
         acc ++ " " ++ ctx.tOr ++ " " ++ ctx.getTranslation (fieldSearchLabel f)
       else acc ++ ", " ++ ctx.getTranslation (fieldSearchLabel f))

/-- Line 84 of index.tsx: the title-field-derived fallback label, `'ID'`
when the title field yields none. -/
def titleSearchLabel (titleLabel : Option String) : String :=
  match titleLabel with
  | some l => l
  | none => "ID"

/-- Lines 110-136 of index.tsx: the derived search label. With a non-empty
searchable-field configuration it is the indexed reduce over the fields
starting from the empty text; otherwise the `searchBy` wrapping of the
translated title label. -/
def searchLabelTranslated (ctx : I18n) (fields : List FieldInfo)
    (titleLabel : Option String) : String :=
  if 0 < fields.length then
    searchByReduce ctx fields.length fields 0 ""
  else
    ctx.tSearchBy (ctx.getTranslation (some (titleSearchLabel titleLabel)))

/-- Stated from the claim's words, not from the code: joining the labels
that follow the first one — each label in between is appended with a comma
separator and the last label is preceded by the `or` separator. -/
def specJoinRest (tOr : String) : List String → String → String
  | [], acc => acc
  | [l], acc => acc ++ " " ++ tOr ++ " " ++ l
  | l :: l2 :: rest, acc => specJoinRest tOr (l2 :: rest) (acc ++ ", " ++ l)

/-- Stated from the claim's words, not from the code: the derived label for
a list of field labels — the first label wrapped in the `searchBy` text, the
rest joined by `specJoinRest`. -/
def specSearchLabel (ctx : I18n) : List String → String
  | [] => ""
  | l :: rest => specJoinRest ctx.tOr rest (ctx.tSearchBy l)

/-- Modelled from the spec: `validateWhereQuery` is imported from
`WhereBuilder/validateWhereQuery.js`, which is not part of this fragment; it
decides whether the query's `where` value is a non-trivial, valid filter
expression, so it is taken here as an arbitrary boolean predicate over the
optional `where` value. Lines 97-100 of index.tsx then initialize
`visibleDrawer` to `'where'` when it holds and to `undefined` otherwise. -/
def initialVisibleDrawer {W : Type} (validateWhereQuery : Option W → Bool)
    (queryWhere : Option W) : Option DrawerKind :=
  if validateWhereQuery queryWhere then some DrawerKind.whereDrawer else none

end Payload

namespace Payload

theorem lastHashIdx?_lt_length (l : List Char) (n : Nat)
    (h : lastHashIdx? l = some n) : n < l.length := by
  induction l generalizing n with
  | nil => simp [lastHashIdx?] at h
  | cons c rest ih =>
    rw [lastHashIdx?] at h
    cases hr : lastHashIdx? rest with
    | some r =>
      rw [hr] at h
      cases h
      simpa using Nat.succ_lt_succ (ih r hr)
    | none =>
      rw [hr] at h
      by_cases hc : c = '#'
      · simp [hc] at h
        cases h
        simp
      · simp [hc] at h

theorem lastHashIdx?_get (l : List Char) (n : Nat)
    (h : lastHashIdx? l = some n) : l[n]? = some '#' := by
  induction l generalizing n with
  | nil => simp [lastHashIdx?] at h
  | cons c rest ih =>
    rw [lastHashIdx?] at h
    cases hr : lastHashIdx? rest with
    | some r =>
      rw [hr] at h
      cases h
      simpa using ih r hr
    | none =>
      rw [hr] at h
      by_cases hc : c = '#'
      · simp [hc] at h
        cases h
        simp [hc]
      · simp [hc] at h

theorem lastHashIdx?_none (l : List Char) (h : lastHashIdx? l = none) (k : Nat) :
    l[k]? ≠ some '#' := by
  induction l generalizing k with
  | nil => simp
  | cons c rest ih =>
    rw [lastHashIdx?] at h
    cases hr : lastHashIdx? rest with
    | some r => rw [hr] at h; simp at h
    | none =>
      rw [hr] at h
      by_cases hc : c = '#'
      · simp [hc] at h
      · cases k with
        | zero => simpa using hc
        | succ k => simpa using ih hr k

theorem lastHashIdx?_last (l : List Char) (n : Nat)
    (h : lastHashIdx? l = some n) (k : Nat) (hk : n < k) : l[k]? ≠ some '#' := by
  induction l generalizing n k with
  | nil => simp
  | cons c rest ih =>
    rw [lastHashIdx?] at h
    cases hr : lastHashIdx? rest with
    | some r =>
      rw [hr] at h
      cases h
      cases k with
      | zero => exact absurd hk (Nat.not_lt_zero _)
      | succ k => simpa using ih r hr k (Nat.lt_of_succ_lt_succ hk)
    | none =>
      rw [hr] at h
      by_cases hc : c = '#'
      · simp [hc] at h
        cases h
        cases k with
        | zero => exact absurd hk (Nat.not_lt_zero _)
        | succ k => simpa using lastHashIdx?_none rest hr k
      · simp [hc] at h

theorem splitAtLastHash_of_none (s : String) (h : lastHashIdx? s.data = none) :
    splitAtLastHash (some s) = (some s, "default") := by
  simp only [splitAtLastHash, jsLastIndexOfHash, h]
  rfl

theorem splitAtLastHash_of_zero (s : String) (h : lastHashIdx? s.data = some 0) :
    splitAtLastHash (some s) = (some s, "default") := by
  simp only [splitAtLastHash, jsLastIndexOfHash, h]
  rfl

theorem splitAtLastHash_of_pos (s : String) (n : Nat)
    (h : lastHashIdx? s.data = some n) (hn : 0 < n) :
    splitAtLastHash (some s) =
      (some (String.mk (s.data.take n)), String.mk (s.data.drop (n + 1))) := by
  simp only [splitAtLastHash, jsLastIndexOfHash, h]
  rw [if_pos (by exact_mod_cast hn)]
  simp

theorem lastHashIdx?_ge (l : List Char) (i : Nat) (hi : l[i]? = some '#') :
    ∃ n, lastHashIdx? l = some n ∧ i ≤ n := by
  induction l generalizing i with
  | nil => simp at hi
  | cons c rest ih =>
    cases i with
    | zero =>
      simp at hi
      cases hr : lastHashIdx? rest with
      | some r => exact ⟨r + 1, by rw [lastHashIdx?, hr], Nat.zero_le _⟩
      | none => exact ⟨0, by rw [lastHashIdx?, hr]; simp [hi], Nat.le_refl 0⟩
    | succ i =>
      simp at hi
      obtain ⟨r, hr, hir⟩ := ih i hi
      exact ⟨r + 1, by rw [lastHashIdx?, hr], Nat.succ_le_succ hir⟩

theorem string_eq_empty_of_data_nil (s : String) (h : s.data = []) : s = "" := by
  cases s with
  | mk d => rw [show d = [] from h]

theorem jsTruthy_str (s : String) (h : s ≠ "") :
    jsTruthy (PayloadComponent.str s) = true := by
  cases hd : s.data.isEmpty
  · simp [jsTruthy, hd]
  · exact absurd (string_eq_empty_of_data_nil s (List.isEmpty_iff.mp hd)) h

theorem parsePayloadComponent_str (s : String) (h : s ≠ "") :
    parsePayloadComponent (PayloadComponent.str s) =
      some { exportName := (splitAtLastHash (some s)).2,
             path := (splitAtLastHash (some s)).1 } := by
  rw [parsePayloadComponent, jsTruthy_str s h]
  rfl

theorem parsePayloadComponent_obj (p e? : Option String) :
    parsePayloadComponent (PayloadComponent.obj p e?) =
      some { exportName :=
               match e? with
               | some e => if e.data.isEmpty then (splitAtLastHash p).2 else e
               | none => (splitAtLastHash p).2,
             path := (splitAtLastHash p).1 } := by
  cases e? <;> rfl

theorem splitAtLastHash_snd_empty (s : String)
    (h : (splitAtLastHash (some s)).2 = "") :
    2 ≤ s.data.length ∧ s.data[s.data.length - 1]? = some '#' := by
  cases hl : lastHashIdx? s.data with
  | none =>
    rw [splitAtLastHash_of_none s hl] at h
    simp at h
  | some n =>
    cases Nat.eq_zero_or_pos n with
    | inl h0 =>
      rw [splitAtLastHash_of_zero s (h0 ▸ hl)] at h
      simp at h
    | inr hpos =>
      rw [splitAtLastHash_of_pos s n hl hpos] at h
      have hd : s.data.drop (n + 1) = [] := by
        have := congrArg String.data h
        simpa using this
      have hlen : s.data.length ≤ n + 1 := by rwa [List.drop_eq_nil_iff] at hd
      have hlt : n < s.data.length := lastHashIdx?_lt_length s.data n hl
      have hget := lastHashIdx?_get s.data n hl
      have heq : s.data.length = n + 1 := by omega
      constructor
      · omega
      · rw [heq]
        simpa using hget

/-- C9: the parser applied to the empty string returns `null`, the same as
for an absent descriptor, rather than normalizing it to a result with path
`""` and exportName `"default"`. -/
theorem C9_empty_string_yields_null :
    parsePayloadComponent (PayloadComponent.str "") = none := rfl

/-- C10: an object descriptor whose `path` field is absent does not make the
parser fail: the optional access guards the scan, and the result keeps the
absent path with exportName `"default"`, or the explicit `exportName` field's
value when that field is present and non-empty. -/
theorem C10_missing_path_guarded (e? : Option String) :
    parsePayloadComponent (PayloadComponent.obj none e?) =
      some { exportName :=
               match e? with
               | some e => if e.data.isEmpty then "default" else e
               | none => "default",
             path := none } := by
  rw [parsePayloadComponent_obj none e?]
  cases e? <;> rfl

/-- Witness for C10 at a present, non-empty `exportName` field. -/
theorem C10_witness :
    parsePayloadComponent (PayloadComponent.obj none (some "X")) =
      some { exportName := "X", path := none } :=
  C10_missing_path_guarded (some "X")

/-- Counterexample to C1 as stated: the parser accepts the string `"a#"`,
whose suffix after the final hash is empty, yet its exportName is the empty
string, not the `"default"` fallback the claim requires. -/
theorem C1_counterexample :
    parsePayloadComponent (PayloadComponent.str "a#") =
      some { exportName := "", path := some "a" } ∧
    ("" : String) ≠ "default" := ⟨rfl, by decide⟩

/-- C1 amended: in every accepted descriptor the exportName is non-empty —
falling back to `"default"` — except when the scanned string has at least
two characters and ends in a hash, in which case the split leaves the empty
string as exportName (and no non-empty object field overrides it). Stated in
the contrapositive direction the counterexample forces: an empty exportName
can only arise from a scanned string of length at least two ending in a
hash. -/
theorem C1_exportName_empty_only_for_trailing_hash
    (pc : PayloadComponent) (r : ResolvedComponent)
    (h : parsePayloadComponent pc = some r) (he : r.exportName = "") :
    ∃ s : String, pathAndMaybeExport pc = some s ∧ 2 ≤ s.data.length ∧
      s.data[s.data.length - 1]? = some '#' := by
  cases pc with
  | jsNull => exact Option.noConfusion h
  | jsUndefined => exact Option.noConfusion h
  | str s =>
    by_cases hs : s = ""
    · rw [hs] at h
      exact Option.noConfusion h
    · rw [parsePayloadComponent_str s hs] at h
      injection h with h'
      subst h'
      obtain ⟨h2, hlast⟩ := splitAtLastHash_snd_empty s he
      exact ⟨s, rfl, h2, hlast⟩
  | obj p e? =>
    rw [parsePayloadComponent_obj p e?] at h
    injection h with h'
    subst h'
    cases e? with
    | none =>
      cases p with
      | none => exact absurd he (by decide)
      | some s =>
        obtain ⟨h2, hlast⟩ := splitAtLastHash_snd_empty s he
        exact ⟨s, rfl, h2, hlast⟩
    | some e =>
      cases hee : e.data.isEmpty with
      | true =>
        have he2 : (splitAtLastHash p).2 = "" := by simpa [hee] using he
        cases p with
        | none => exact absurd he2 (by decide)
        | some s =>
          obtain ⟨h2, hlast⟩ := splitAtLastHash_snd_empty s he2
          exact ⟨s, rfl, h2, hlast⟩
      | false =>
        have he2 : e = "" := by simpa [hee] using he
        rw [he2] at hee
        exact absurd hee (by decide)

/-- Witness for C1's amended theorem at the concrete accepted input `"a#"`,
whose parse has the empty exportName. -/
theorem C1_witness :
    parsePayloadComponent (PayloadComponent.str "a#") =
      some { exportName := "", path := some "a" } ∧
    ∃ s : String, pathAndMaybeExport (PayloadComponent.str "a#") = some s ∧
      2 ≤ s.data.length ∧ s.data[s.data.length - 1]? = some '#' :=
  ⟨rfl, C1_exportName_empty_only_for_trailing_hash (PayloadComponent.str "a#")
    { exportName := "", path := some "a" } rfl rfl⟩

/-- Counterexample to C4 as stated: the empty string descriptor also makes
the parser return `null`, so the null/undefined case is not the only input
with the `null` outcome. -/
theorem C4_counterexample :
    parsePayloadComponent (PayloadComponent.str "") = none ∧
    PayloadComponent.str "" ≠ PayloadComponent.jsNull ∧
    PayloadComponent.str "" ≠ PayloadComponent.jsUndefined :=
  ⟨rfl, by decide, by decide⟩

/-- C4 amended: the parser returns `null` on `null` and on `undefined`, and
its only failure outcome is that `null` return, produced exactly for the
falsy descriptors: `null`, `undefined` and the empty string; every other
descriptor yields a result. -/
theorem C4_null_undefined_and_empty_only_failures (pc : PayloadComponent) :
    parsePayloadComponent PayloadComponent.jsNull = none ∧
    parsePayloadComponent PayloadComponent.jsUndefined = none ∧
    (parsePayloadComponent pc = none ↔
      (pc = PayloadComponent.jsNull ∨ pc = PayloadComponent.jsUndefined ∨
        pc = PayloadComponent.str "")) := by
  refine ⟨rfl, rfl, ?_⟩
  cases pc with
  | jsNull => exact iff_of_true rfl (Or.inl rfl)
  | jsUndefined => exact iff_of_true rfl (Or.inr (Or.inl rfl))
  | str s =>
    by_cases hs : s = ""
    · rw [hs]
      exact iff_of_true rfl (Or.inr (Or.inr rfl))
    · rw [parsePayloadComponent_str s hs]
      simp [hs]
  | obj p e? =>
    rw [parsePayloadComponent_obj p e?]
    simp

/-- C2: a string input with a hash at an index above zero is split at the
last hash of the string: the returned path is everything before that hash
and the exportName everything after it. -/
theorem C2_string_split_at_last_hash (s : String) (i : Nat) (hi : 0 < i)
    (hhash : s.data[i]? = some '#') :
    ∃ n : Nat, 0 < n ∧ s.data[n]? = some '#' ∧
      (∀ k, n < k → s.data[k]? ≠ some '#') ∧
      parsePayloadComponent (PayloadComponent.str s) =
        some { exportName := String.mk (s.data.drop (n + 1)),
               path := some (String.mk (s.data.take n)) } := by
  obtain ⟨n, hn, hin⟩ := lastHashIdx?_ge s.data i hhash
  have hpos : 0 < n := Nat.lt_of_lt_of_le hi hin
  have hsne : s ≠ "" := by
    intro hs
    rw [hs, show ("" : String).data = [] from rfl] at hhash
    simp at hhash
  refine ⟨n, hpos, lastHashIdx?_get s.data n hn,
    fun k hk => lastHashIdx?_last s.data n hn k hk, ?_⟩
  rw [parsePayloadComponent_str s hsne, splitAtLastHash_of_pos s n hn hpos]

/-- Witness for C2 at the spec's example `"a/b/c#Named"` (hash at index 5),
together with the concrete evaluation of the parse. -/
theorem C2_witness :
    (0 < 5 ∧ ("a/b/c#Named" : String).data[5]? = some '#') ∧
    (∃ n : Nat, 0 < n ∧ ("a/b/c#Named" : String).data[n]? = some '#' ∧
      (∀ k, n < k → ("a/b/c#Named" : String).data[k]? ≠ some '#') ∧
      parsePayloadComponent (PayloadComponent.str "a/b/c#Named") =
        some { exportName := String.mk (("a/b/c#Named" : String).data.drop (n + 1)),
               path := some (String.mk (("a/b/c#Named" : String).data.take n)) }) ∧
    parsePayloadComponent (PayloadComponent.str "a/b/c#Named") =
      some { exportName := "Named", path := some "a/b/c" } :=
  ⟨⟨by decide, by decide⟩,
   C2_string_split_at_last_hash "a/b/c#Named" 5 (by decide) (by decide), rfl⟩

/-- C5: a non-empty string with no hash at any index above zero parses to the
whole string as path and `"default"` as exportName. -/
theorem C5_no_qualifying_hash_defaults (s : String) (hne : s ≠ "")
    (hno : ∀ i, i < s.data.length → 0 < i → s.data[i]? ≠ some '#') :
    parsePayloadComponent (PayloadComponent.str s) =
      some { exportName := "default", path := some s } := by
  rw [parsePayloadComponent_str s hne]
  cases hl : lastHashIdx? s.data with
  | none => rw [splitAtLastHash_of_none s hl]
  | some n =>
    cases Nat.eq_zero_or_pos n with
    | inl h0 => rw [splitAtLastHash_of_zero s (h0 ▸ hl)]
    | inr hpos =>
      exact absurd (lastHashIdx?_get s.data n hl)
        (hno n (lastHashIdx?_lt_length s.data n hl) hpos)

/-- Witness for C5 at the spec's example `"#leadingHash"`, whose only hash
sits at index 0. -/
theorem C5_witness :
    ("#leadingHash" : String) ≠ "" ∧
    parsePayloadComponent (PayloadComponent.str "#leadingHash") =
      some { exportName := "default", path := some "#leadingHash" } :=
  ⟨by decide, C5_no_qualifying_hash_defaults "#leadingHash" (by decide) (by decide)⟩

/-- Counterexample to C3 as stated: the object `{path: "a/b#X", exportName: ""}`
carries a non-absent exportName field, yet the parse takes the suffix `"X"`
from the path, because the empty field is falsy and does not override. -/
theorem C3_counterexample :
    parsePayloadComponent (PayloadComponent.obj (some "a/b#X") (some "")) =
      some { exportName := "X", path := some "a/b" } ∧
    ("X" : String) ≠ "" := ⟨rfl, by decide⟩

/-- C3 amended: for an object whose path field has a hash suffix, with a
NON-EMPTY (rather than merely non-absent) explicit exportName field, the
parse strips the suffix from the path by the same last-hash rule and the
explicit field wins as exportName. -/
theorem C3_explicit_export_overrides (p e : String) (he : e ≠ "") (i : Nat)
    (hi : 0 < i) (hhash : p.data[i]? = some '#') :
    ∃ n : Nat, 0 < n ∧ p.data[n]? = some '#' ∧
      (∀ k, n < k → p.data[k]? ≠ some '#') ∧
      parsePayloadComponent (PayloadComponent.obj (some p) (some e)) =
        some { exportName := e, path := some (String.mk (p.data.take n)) } := by
  obtain ⟨n, hn, hin⟩ := lastHashIdx?_ge p.data i hhash
  have hpos : 0 < n := Nat.lt_of_lt_of_le hi hin
  have hee : e.data.isEmpty = false := by
    cases hd : e.data.isEmpty
    · rfl
    · exact absurd (string_eq_empty_of_data_nil e (List.isEmpty_iff.mp hd)) he
  refine ⟨n, hpos, lastHashIdx?_get p.data n hn,
    fun k hk => lastHashIdx?_last p.data n hn k hk, ?_⟩
  rw [parsePayloadComponent_obj (some p) (some e),
    splitAtLastHash_of_pos p n hn hpos]
  simp [hee]

/-- Witness for C3's amended theorem at the spec's example
`{path: "a/b#X", exportName: "Y"}` (hash at index 3), with the concrete
evaluation of the parse. -/
theorem C3_witness :
    (("Y" : String) ≠ "" ∧ 0 < 3 ∧ ("a/b#X" : String).data[3]? = some '#') ∧
    (∃ n : Nat, 0 < n ∧ ("a/b#X" : String).data[n]? = some '#' ∧
      (∀ k, n < k → ("a/b#X" : String).data[k]? ≠ some '#') ∧
      parsePayloadComponent (PayloadComponent.obj (some "a/b#X") (some "Y")) =
        some { exportName := "Y",
               path := some (String.mk (("a/b#X" : String).data.take n)) }) ∧
    parsePayloadComponent (PayloadComponent.obj (some "a/b#X") (some "Y")) =
      some { exportName := "Y", path := some "a/b" } :=
  ⟨⟨by decide, by decide, by decide⟩,
   C3_explicit_export_overrides "a/b#X" "Y" (by decide) 3 (by decide) (by decide), rfl⟩


/-- Counterexample to C6 as stated: toggling the same drawer twice does NOT
return visibility to closed from every state — from the state where that
drawer is already open, two clicks close it and then reopen it. -/
theorem C6_counterexample :
    toggleDrawer (toggleDrawer (some DrawerKind.columns) DrawerKind.columns)
        DrawerKind.columns = some DrawerKind.columns ∧
    some DrawerKind.columns ≠ (none : Option DrawerKind) := ⟨rfl, by decide⟩

/-- C6 amended: a click on drawer `d` opens it when it is not the open
drawer and closes it when it is; hence double toggling returns to closed
from every state in which `d` was not already open (from the open state the
two clicks close and then reopen it); and a toggle only ever leaves `d`
itself open, so at most one drawer is open. -/
theorem C6_toggle_radio (s : Option DrawerKind) (d : DrawerKind) :
    (s ≠ some d → toggleDrawer s d = some d) ∧
    toggleDrawer (some d) d = none ∧
    (s ≠ some d → toggleDrawer (toggleDrawer s d) d = none) ∧
    (∀ e, toggleDrawer s d = some e → e = d) := by
  by_cases h : s = some d <;> simp [toggleDrawer, h]

/-- Witness for C6's amended theorem: double toggles from the closed state
and from a state with a different drawer open both end closed. -/
theorem C6_witness :
    toggleDrawer (toggleDrawer none DrawerKind.columns) DrawerKind.columns = none ∧
    toggleDrawer (toggleDrawer (some DrawerKind.sortDrawer) DrawerKind.whereDrawer)
        DrawerKind.whereDrawer = none :=
  ⟨(C6_toggle_radio none DrawerKind.columns).2.2.1 (by decide),
   (C6_toggle_radio (some DrawerKind.sortDrawer) DrawerKind.whereDrawer).2.2.1 (by decide)⟩

/-- C7: on mount, the initial drawer state opens the filter drawer exactly
when the current query's `where` expression validates as non-trivial
(spec-modelled `validateWhereQuery`), and no drawer is open otherwise. -/
theorem C7_initial_drawer {W : Type} (validateWhereQuery : Option W → Bool)
    (queryWhere : Option W) :
    (initialVisibleDrawer validateWhereQuery queryWhere = some DrawerKind.whereDrawer ↔
      validateWhereQuery queryWhere = true) ∧
    (validateWhereQuery queryWhere = false →
      initialVisibleDrawer validateWhereQuery queryWhere = none) := by
  cases h : validateWhereQuery queryWhere <;> simp [initialVisibleDrawer, h]

/-- Witness for C7 at concrete validation outcomes on a trivial query
type. -/
theorem C7_witness :
    initialVisibleDrawer (fun _ : Option Unit => false) none = none ∧
    (initialVisibleDrawer (fun _ : Option Unit => true) none = some DrawerKind.whereDrawer ↔
      (fun _ : Option Unit => true) none = true) :=
  ⟨(C7_initial_drawer (fun _ : Option Unit => false) none).2 rfl,
   (C7_initial_drawer (fun _ : Option Unit => true) none).1⟩


theorem searchByReduce_eq_specJoinRest (ctx : I18n) (fs : List FieldInfo) :
    ∀ (k : Nat) (acc : String) (n : Nat), 0 < k → k + fs.length = n →
      searchByReduce ctx n fs k acc =
        specJoinRest ctx.tOr
          (fs.map (fun f => ctx.getTranslation (fieldSearchLabel f))) acc := by
  induction fs with
  | nil => intro k acc n hk hn; rfl
  | cons f rest ih =>
    intro k acc n hk hn
    cases rest with
    | nil =>
      have hlen : k + 1 = n := by simpa using hn
      have hk1 : k = n - 1 := by omega
      have hk0 : ¬ k = 0 := Nat.pos_iff_ne_zero.mp hk
      simp only [searchByReduce, List.map]
      rw [if_neg hk0, if_pos hk1]
      rfl
    | cons f2 rest2 =>
      have hlen : k + (rest2.length + 2) = n := by simpa using hn
      have hk0 : ¬ k = 0 := Nat.pos_iff_ne_zero.mp hk
      have hk1 : ¬ k = n - 1 := by omega
      rw [show searchByReduce ctx n (f :: f2 :: rest2) k acc =
          searchByReduce ctx n (f2 :: rest2) (k + 1)
            (if k = 0 then ctx.tSearchBy (ctx.getTranslation (fieldSearchLabel f))
             else if k = n - 1 then
               acc ++ " " ++ ctx.tOr ++ " " ++ ctx.getTranslation (fieldSearchLabel f)
             else acc ++ ", " ++ ctx.getTranslation (fieldSearchLabel f)) from rfl]
      rw [if_neg hk0, if_neg hk1]
      rw [ih (k + 1) (acc ++ ", " ++ ctx.getTranslation (fieldSearchLabel f)) n
        (Nat.succ_pos k) (by simp only [List.length_cons]; omega)]
      simp only [List.map]
      rfl

/-- C8: with a non-empty searchable-field configuration the derived search
label equals the claim's join of the fields' labels (each label falling back
to the field's name): the first wrapped in the translated `search by` text,
every label in between appended with a comma separator, the last preceded by
the `or` separator; with an empty configuration it is the `search by`
wrapping of the title field's label (or `'ID'`). -/
theorem C8_search_label (ctx : I18n) (fields : List FieldInfo)
    (titleLabel : Option String) :
    (fields ≠ [] →
      searchLabelTranslated ctx fields titleLabel =
        specSearchLabel ctx
          (fields.map (fun f => ctx.getTranslation (fieldSearchLabel f)))) ∧
    (fields = [] →
      searchLabelTranslated ctx fields titleLabel =
        ctx.tSearchBy (ctx.getTranslation (some (titleSearchLabel titleLabel)))) := by
  constructor
  · intro hne
    cases fields with
    | nil => exact absurd rfl hne
    | cons f rest =>
      rw [searchLabelTranslated, if_pos (by simp)]
      simp only [searchByReduce, List.map, specSearchLabel, if_true]
      exact searchByReduce_eq_specJoinRest ctx rest 1
        (ctx.tSearchBy (ctx.getTranslation (fieldSearchLabel f)))
        ((f :: rest).length) Nat.one_pos
        (by rw [List.length_cons]; omega)
  · intro h
    subst h
    rfl

/-- Witness for C8 at a concrete three-field configuration and concrete
translation functions, with the concrete evaluation of the label. -/
theorem C8_witness :
    ([⟨some "A", none⟩, ⟨none, some "B"⟩, ⟨some "C", some "c"⟩] : List FieldInfo) ≠ [] ∧
    searchLabelTranslated ⟨fun l => "Search by " ++ l, "or", fun o => o.getD ""⟩
        [⟨some "A", none⟩, ⟨none, some "B"⟩, ⟨some "C", some "c"⟩] none =
      specSearchLabel ⟨fun l => "Search by " ++ l, "or", fun o => o.getD ""⟩
        (([⟨some "A", none⟩, ⟨none, some "B"⟩, ⟨some "C", some "c"⟩] : List FieldInfo).map
          (fun f =>
            (⟨fun l => "Search by " ++ l, "or", fun o => o.getD ""⟩ : I18n).getTranslation
              (fieldSearchLabel f))) ∧
    searchLabelTranslated ⟨fun l => "Search by " ++ l, "or", fun o => o.getD ""⟩
        [⟨some "A", none⟩, ⟨none, some "B"⟩, ⟨some "C", some "c"⟩] none =
      "Search by A, B or C" :=
  ⟨by decide,
   (C8_search_label ⟨fun l => "Search by " ++ l, "or", fun o => o.getD ""⟩
      [⟨some "A", none⟩, ⟨none, some "B"⟩, ⟨some "C", some "c"⟩] none).1 (by decide),
   rfl⟩

end Payload
